import Mathlib

/-!
Verification development for the Discord_BL_Checker persistence core.

Shallow embedding of:
* `src/models/BlacklistEntry.ts` (validation / sanitization of create inputs),
* `src/models/SearchCriteria.ts` (validation / sanitization of search criteria),
* `src/database/BlacklistRepository.ts` (SQL repository over one table,
  modelled as a pure state transformer over an explicit store),
* `src/services/BlacklistService.ts` (business protocol: add / search / remove),
* `src/database/connection.ts` (`DatabaseConnection`: reconnect/backoff state
  machine, `query` / `transaction` connection-release discipline, modelled as a
  transition function over explicit state plus an outcome oracle for the
  external MySQL driver).

JavaScript strings are modelled by Lean `String` (a list of characters);
`String.prototype.trim` and `String.prototype.includes` are modelled
character-listwise.  MySQL comparison semantics follow the table DDL in
`schema.ts` (`createBlacklistTable`): the table is declared
`CHARSET utf8mb4 COLLATE utf8mb4_unicode_ci`, and MySQL collations whose name
ends in `_ci` compare strings case-insensitively, both for `=` and for `LIKE`.
Case folding is modelled by `Char.toLower` (the ASCII fragment of the
`unicode_ci` folding, which is all the claims exercise).  `LIKE` patterns are
only ever built by the repository in the shape `'%' ++ fragment ++ '%'` from
fragments free of wildcard metacharacters, so they are modelled as substring
containment.
-/

namespace BLChecker

/-- Whitespace class used by the model of `String.prototype.trim`. -/
def jsWS (c : Char) : Bool := c.isWhitespace

/-- Model of `String.prototype.trim` on the character list: drop leading and
trailing whitespace. -/
def trimList (l : List Char) : List Char :=
  ((l.dropWhile jsWS).reverse.dropWhile jsWS).reverse

/-- Model of `s.trim()` for a JavaScript string `s`. -/
def jsTrim (s : String) : String := ⟨trimList s.data⟩

/-- Contiguous-segment containment on character lists: `sub` occurs as a
contiguous segment of the second argument. -/
def containsSeg (sub : List Char) : List Char → Bool
  | [] => sub.isEmpty
  | c :: rest => sub.isPrefixOf (c :: rest) || containsSeg sub rest

/-- Model of `s.includes(sub)` for JavaScript strings (case-sensitive
substring containment). -/
def jsIncludes (s sub : String) : Bool := containsSeg sub.data s.data

/-- Case folding for the `utf8mb4_unicode_ci` collation (ASCII fragment). -/
def ciFold (s : String) : String := ⟨s.data.map Char.toLower⟩

/-- MySQL string equality under the table's `_ci` (case-insensitive)
collation, as used by `WHERE identifier = ?`. -/
def sqlCiEq (a b : String) : Bool := ciFold a == ciFold b

/-- MySQL `value LIKE '%fragment%'` under the table's `_ci` collation:
case-insensitive substring containment (the repository only builds patterns
of this shape, from fragments without wildcard metacharacters). -/
def sqlCiLikeContains (value fragment : String) : Bool :=
  containsSeg (ciFold fragment).data (ciFold value).data

/-- JavaScript truthiness of an optional string field: `undefined` and the
empty string are falsy. -/
def truthy : Option String → Bool
  | none => false
  | some s => s != ""

/-- Model of the JavaScript expression `x || null` on an optional string:
an empty string collapses to `null` (absent). -/
def jsOrNull : Option String → Option String
  | none => none
  | some s => if s != "" then some s else none

/-! ### Entity and validation module

Embeds `src/models/BlacklistEntry.ts`.  The TypeScript interfaces give
`identifier`/`createdBy` type `string` and the name fields type
`string | undefined`; accordingly the `typeof !== 'string'` and
`undefined`/`null` branches of the validators are unreachable here and the
optional fields are `Option String`. -/

/-- Embeds `CreateBlacklistEntryInput`. -/
structure CreateBlacklistEntryInput where
  identifier : String
  firstName : Option String
  lastName : Option String
  createdBy : String
deriving Repr, DecidableEq

/-- Embeds `ValidationResult` (and `SearchValidationResult`, which has the
same shape). -/
structure ValidationResult where
  isValid : Bool
  errors : List String
deriving Repr, DecidableEq

/-- Embeds `validateBlacklistEntry` from `BlacklistEntry.ts`.  Each field
contributes the first applicable message of its `else if` chain; the chains of
the four fields are concatenated in source order; `isValid` is
`errors.length === 0`.  JavaScript `s.length` is modelled as the character
count `s.data.length`. -/
def validateBlacklistEntry (input : CreateBlacklistEntryInput) : ValidationResult :=
  let idErrors : List String :=
    if (jsTrim input.identifier).data.length = 0 then ["Identifier cannot be empty"]
    else if input.identifier.data.length > 255 then ["Identifier cannot exceed 255 characters"]
    else []
  let createdByErrors : List String :=
    if (jsTrim input.createdBy).data.length = 0 then ["CreatedBy cannot be empty"]
    else if input.createdBy.data.length > 20 then ["CreatedBy cannot exceed 20 characters"]
    else []
  let firstNameErrors : List String :=
    match input.firstName with
    | some s => if s.data.length > 100 then ["FirstName cannot exceed 100 characters"] else []
    | none => []
  let lastNameErrors : List String :=
    match input.lastName with
    | some s => if s.data.length > 100 then ["LastName cannot exceed 100 characters"] else []
    | none => []
  let errors := idErrors ++ createdByErrors ++ firstNameErrors ++ lastNameErrors
  { isValid := errors.isEmpty, errors := errors }

/-- Model of the JavaScript pattern
`if (x && x.trim()) result.field = x.trim()` on one optional string field:
keep the trimmed value only when the field and its trim are truthy. -/
def keepTrimmed : Option String → Option String
  | some s => if s != "" && jsTrim s != "" then some (jsTrim s) else none
  | none => none

/-- Embeds `sanitizeBlacklistEntryInput` from `BlacklistEntry.ts`:
`identifier`/`createdBy` become `input.x?.trim() || ''` (for a `string` input
this is just the trim — when the trim is empty the `|| ''` yields the same
empty string); a name field is kept, trimmed, only when it and its trim are
truthy. -/
def sanitizeBlacklistEntryInput (input : CreateBlacklistEntryInput) :
    CreateBlacklistEntryInput :=
  { identifier := jsTrim input.identifier
    createdBy := jsTrim input.createdBy
    firstName := keepTrimmed input.firstName
    lastName := keepTrimmed input.lastName }

/-- Embeds `SearchCriteria`. -/
structure SearchCriteria where
  identifier : Option String
  firstName : Option String
  lastName : Option String
deriving Repr, DecidableEq

/-- Embeds `validateSearchCriteria` from `SearchCriteria.ts`: the
at-least-one-criterion check (on truthiness of the three fields) followed by
the per-field `else if` chains, `isValid` again `errors.length === 0`. -/
def validateSearchCriteria (criteria : SearchCriteria) : ValidationResult :=
  let atLeastOneErrors : List String :=
    if !truthy criteria.identifier && !truthy criteria.firstName &&
        !truthy criteria.lastName then
      ["At least one search criterion must be provided (identifier, firstName, or lastName)"]
    else []
  let idErrors : List String :=
    match criteria.identifier with
    | some s =>
      if (jsTrim s).data.length = 0 then ["Identifier cannot be empty when provided"]
      else if s.data.length > 255 then ["Identifier cannot exceed 255 characters"]
      else []
    | none => []
  let firstNameErrors : List String :=
    match criteria.firstName with
    | some s =>
      if (jsTrim s).data.length = 0 then ["FirstName cannot be empty when provided"]
      else if s.data.length > 100 then ["FirstName cannot exceed 100 characters"]
      else []
    | none => []
  let lastNameErrors : List String :=
    match criteria.lastName with
    | some s =>
      if (jsTrim s).data.length = 0 then ["LastName cannot be empty when provided"]
      else if s.data.length > 100 then ["LastName cannot exceed 100 characters"]
      else []
    | none => []
  let errors := atLeastOneErrors ++ idErrors ++ firstNameErrors ++ lastNameErrors
  { isValid := errors.isEmpty, errors := errors }

/-- Embeds `sanitizeSearchCriteria` from `SearchCriteria.ts`: each field is
kept, trimmed, only when the field and its trim are truthy; otherwise it is
absent from the result. -/
def sanitizeSearchCriteria (criteria : SearchCriteria) : SearchCriteria :=
  { identifier := keepTrimmed criteria.identifier
    firstName := keepTrimmed criteria.firstName
    lastName := keepTrimmed criteria.lastName }

/-! ### Store model

The MySQL table `blacklist_entries` (DDL in `schema.ts`,
`createBlacklistTable`) is modelled as a list of rows plus the
`AUTO_INCREMENT` counter and a logical clock supplying `created_at`
(`TIMESTAMP DEFAULT CURRENT_TIMESTAMP`, monotone over insertions). -/

/-- Row of `blacklist_entries` (snake_case column names as in the DDL;
`first_name` / `last_name` are nullable). -/
structure StoredRow where
  id : Nat
  identifier : String
  first_name : Option String
  last_name : Option String
  created_at : Nat
  created_by : String
deriving Repr, DecidableEq

/-- State of the `blacklist_entries` table. -/
structure Store where
  rows : List StoredRow
  nextId : Nat
  clock : Nat
deriving Repr, DecidableEq

/-- Well-formedness of the store: `AUTO_INCREMENT` starts at 1 and every
stored id is below the counter (so a fresh insert never collides). -/
def Store.wf (st : Store) : Prop :=
  1 ≤ st.nextId ∧ ∀ r ∈ st.rows, r.id < st.nextId

/-- Embeds the `BlacklistEntry` entity interface (camelCase, optional name
fields). -/
structure BlacklistEntry where
  id : Nat
  identifier : String
  firstName : Option String
  lastName : Option String
  createdAt : Nat
  createdBy : String
deriving Repr, DecidableEq

/-! ### Repository

Embeds `BlacklistRepository` from `src/database/BlacklistRepository.ts`.
Thrown errors are modelled as `Except.error msg`; a repository call that can
fail for an infrastructure reason takes an explicit `Bool` oracle flag
(`true` = the underlying statement fails).  Statements never mutate the store
on a failure. -/

/-- Embeds `BlacklistRepository.mapRowToEntry`: snake_case columns to
camelCase fields; a name column that is `null` (or, by JavaScript
truthiness, the empty string) is absent from the entity. -/
def mapRowToEntry (row : StoredRow) : BlacklistEntry :=
  { id := row.id
    identifier := row.identifier
    createdAt := row.created_at
    createdBy := row.created_by
    firstName :=
      match row.first_name with
      | some s => if s != "" then some s else none
      | none => none
    lastName :=
      match row.last_name with
      | some s => if s != "" then some s else none
      | none => none }

/-- Embeds `BlacklistRepository.create`: defensive re-sanitization and
re-validation, then the parameterized
`INSERT INTO blacklist_entries (identifier, first_name, last_name, created_by)`
with `firstName || null` / `lastName || null`; returns `insertId`. -/
def repoCreate (st : Store) (entry : CreateBlacklistEntryInput)
    (insertFails : Bool) : Except String Nat × Store :=
  let sanitizedEntry := sanitizeBlacklistEntryInput entry
  let validation := validateBlacklistEntry sanitizedEntry
  if !validation.isValid then
    (.error ("Invalid blacklist entry: " ++ String.intercalate ", " validation.errors), st)
  else if insertFails then
    (.error "Failed to create blacklist entry", st)
  else
    let row : StoredRow :=
      { id := st.nextId
        identifier := sanitizedEntry.identifier
        first_name := jsOrNull sanitizedEntry.firstName
        last_name := jsOrNull sanitizedEntry.lastName
        created_at := st.clock
        created_by := sanitizedEntry.createdBy }
    (.ok st.nextId,
      { rows := st.rows ++ [row], nextId := st.nextId + 1, clock := st.clock + 1 })

/-- Embeds `BlacklistRepository.exists`:
`SELECT COUNT(*) ... WHERE identifier = ?` on the trimmed identifier (string
equality under the table's `_ci` collation), after rejecting blank
identifiers. -/
def repoExists (st : Store) (identifier : String) (statementFails : Bool) :
    Except String Bool :=
  if jsTrim identifier == "" then
    .error "Identifier is required and must be a non-empty string"
  else if statementFails then
    .error "Failed to check blacklist entry existence"
  else
    .ok (st.rows.any fun r => sqlCiEq r.identifier (jsTrim identifier))

/-- Embeds `BlacklistRepository.findById`: positive-id validation, then
`SELECT ... WHERE id = ?` returning the first row mapped, or `null`. -/
def repoFindById (st : Store) (id : Int) : Except String (Option BlacklistEntry) :=
  if id ≤ 0 then .error "ID must be a positive number"
  else .ok (((st.rows.filter fun r => (r.id : Int) == id).head?).map mapRowToEntry)

/-- Embeds `BlacklistRepository.deleteById`: positive-id validation, then
`DELETE FROM blacklist_entries WHERE id = ?`, returning
`affectedRows > 0` together with the updated store. -/
def repoDeleteById (st : Store) (id : Int) : Except String Bool × Store :=
  if id ≤ 0 then (.error "ID must be a positive number", st)
  else
    let affected := (st.rows.filter fun r => (r.id : Int) == id).length
    (.ok (decide (affected > 0)),
      { st with rows := st.rows.filter fun r => !((r.id : Int) == id) })

/-- Row predicate built by `BlacklistRepository.search`: one conjunct per
truthy criteria field — exact (collation) match on `identifier`,
`LIKE '%value%'` on `first_name` / `last_name` (a `NULL` column never
matches a `LIKE` predicate). -/
def rowMatches (criteria : SearchCriteria) (r : StoredRow) : Bool :=
  (match criteria.identifier with
   | some v => if v != "" then sqlCiEq r.identifier v else true
   | none => true) &&
  (match criteria.firstName with
   | some v =>
     if v != "" then
       match r.first_name with
       | some n => sqlCiLikeContains n v
       | none => false
     else true
   | none => true) &&
  (match criteria.lastName with
   | some v =>
     if v != "" then
       match r.last_name with
       | some n => sqlCiLikeContains n v
       | none => false
     else true
   | none => true)

/-- Embeds `BlacklistRepository.search`: defensive re-sanitization and
re-validation of the criteria, then the dynamically built
`SELECT ... WHERE 1=1 AND ... ORDER BY created_at DESC` (rows are stored in
insertion order, which is ascending `created_at`, so newest-first is the
reverse), mapped to entities. -/
def repoSearch (st : Store) (criteria : SearchCriteria) :
    Except String (List BlacklistEntry) :=
  let sanitizedCriteria := sanitizeSearchCriteria criteria
  let validation := validateSearchCriteria sanitizedCriteria
  if !validation.isValid then
    .error ("Invalid search criteria: " ++ String.intercalate ", " validation.errors)
  else
    .ok (((st.rows.filter (rowMatches sanitizedCriteria)).reverse).map mapRowToEntry)

/-! ### Service

Embeds `BlacklistService` from `src/services/BlacklistService.ts`. -/

/-- Embeds `BlacklistService.checkDuplicate`: rejects blank identifiers, then
calls `repository.exists(identifier.trim())`; any repository error is
re-thrown as `Failed to check for duplicate entry`. -/
def checkDuplicate (st : Store) (identifier : String) (existsFails : Bool) :
    Except String Bool :=
  if jsTrim identifier == "" then
    .error "Invalid identifier: Identifier must be a non-empty string"
  else
    match repoExists st (jsTrim identifier) existsFails with
    | .ok b => .ok b
    | .error _ => .error "Failed to check for duplicate entry"

/-- Embeds `BlacklistService.addEntry`: sanitize, validate (throwing
`Validation failed: ...` with all collected messages), then the duplicate
check — a positive result throws the duplicate-entry error inside the `try`,
whose `catch` re-throws exactly the errors whose message includes
`'Duplicate entry'` and converts every other error from the check into
`Failed to verify entry uniqueness` — and finally `repository.create`, whose
failure is converted into `Failed to add blacklist entry to database`. -/
def addEntry (st : Store) (entry : CreateBlacklistEntryInput)
    (existsFails insertFails : Bool) : Except String Nat × Store :=
  let sanitizedEntry := sanitizeBlacklistEntryInput entry
  let validation := validateBlacklistEntry sanitizedEntry
  if !validation.isValid then
    (.error ("Validation failed: " ++ String.intercalate ", " validation.errors), st)
  else
    let dupStep : Except String Unit :=
      match checkDuplicate st sanitizedEntry.identifier existsFails with
      | .ok isDuplicate =>
        if isDuplicate then
          let dupMsg := "Duplicate entry: An entry with identifier \"" ++
            sanitizedEntry.identifier ++ "\" already exists"
          if jsIncludes dupMsg "Duplicate entry" then .error dupMsg
          else .error "Failed to verify entry uniqueness"
        else .ok ()
      | .error msg =>
        if jsIncludes msg "Duplicate entry" then .error msg
        else .error "Failed to verify entry uniqueness"
    match dupStep with
    | .error msg => (.error msg, st)
    | .ok _ =>
      match repoCreate st sanitizedEntry insertFails with
      | (.ok entryId, st') => (.ok entryId, st')
      | (.error _, st') => (.error "Failed to add blacklist entry to database", st')

/-- Embeds `BlacklistService.searchEntries`: sanitize, validate (throwing
`Search validation failed: ...`), then `repository.search`; repository errors
become `Failed to search blacklist entries`. -/
def searchEntries (st : Store) (criteria : SearchCriteria) :
    Except String (List BlacklistEntry) :=
  let sanitizedCriteria := sanitizeSearchCriteria criteria
  let validation := validateSearchCriteria sanitizedCriteria
  if !validation.isValid then
    .error ("Search validation failed: " ++ String.intercalate ", " validation.errors)
  else
    match repoSearch st sanitizedCriteria with
    | .ok results => .ok results
    | .error _ => .error "Failed to search blacklist entries"

/-- Result of `BlacklistService.removeEntry`, together with the store after
the call and whether a `DELETE` statement was issued. -/
structure RemoveResult where
  result : Except String Bool
  store : Store
  deleteIssued : Bool
deriving Repr

/-- Embeds `BlacklistService.removeEntry`: positive-id validation, then
`findById` — a miss returns `false` without any `DELETE` — else
`deleteById`, returning whether a row was affected. -/
def removeEntry (st : Store) (id : Int) : RemoveResult :=
  if id ≤ 0 then
    { result := .error "Invalid ID: ID must be a positive number"
      store := st, deleteIssued := false }
  else
    match repoFindById st id with
    | .error _ =>
      { result := .error "Failed to remove blacklist entry", store := st
        deleteIssued := false }
    | .ok none => { result := .ok false, store := st, deleteIssued := false }
    | .ok (some _) =>
      match repoDeleteById st id with
      | (.ok deleted, st') =>
        { result := .ok deleted, store := st', deleteIssued := true }
      | (.error _, st') =>
        { result := .error "Failed to remove blacklist entry", store := st'
          deleteIssued := true }

/-- Embeds `BlacklistService.getById`: positive-id validation, then
`repository.findById`; repository errors become
`Failed to get entry by ID`. -/
def getById (st : Store) (id : Int) : Except String (Option BlacklistEntry) :=
  if id ≤ 0 then .error "Invalid ID: ID must be a positive number"
  else
    match repoFindById st id with
    | .ok entry => .ok entry
    | .error _ => .error "Failed to get entry by ID"

/-! ### Connection manager

Embeds `DatabaseConnection` from `src/database/connection.ts`.

`connect` / `handleConnectionError` form a recursive retry loop over mutable
fields `pool` (modelled as a `Bool`: pool object present or `null`) and
`reconnectAttempts`, with constants `maxReconnectAttempts = 5` and
`reconnectDelay = 1000`.  The external driver is modelled by an oracle list:
one `ConnOutcome` per executed connection attempt ( `mysql.createPool`
followed by the `testConnection` probe).  Retryability of an error is decided
in the source by `errorHandler.handleDatabaseError` from the error message;
the oracle carries that decision.  A `createPool` failure leaves `pool` null;
a probe failure leaves the freshly created pool assigned (the source never
clears `this.pool` on a failed probe).  The result records the final field
values and the backoff delays awaited, in order. -/

/-- Constant `maxReconnectAttempts` of `DatabaseConnection`. -/
def maxReconnectAttempts : Nat := 5

/-- Constant `reconnectDelay` (base backoff, milliseconds) of
`DatabaseConnection`. -/
def reconnectDelay : Nat := 1000

/-- Outcome of one executed connection attempt
(`mysql.createPool` + `testConnection`). -/
inductive ConnOutcome where
  | ok
  | createFailRetryable
  | createFailFatal
  | pingFailRetryable
  | pingFailFatal
deriving Repr, DecidableEq

/-- Mutable connection-manager state: `pool` present?, `reconnectAttempts`. -/
structure ConnState where
  pool : Bool
  reconnectAttempts : Nat
deriving Repr, DecidableEq

/-- Result of a `connect()` call: how it returned, the final state, and the
list of backoff delays awaited (in order).  `terminal n` is the
`Failed to connect to database after n attempts` error;
`fatal` is a non-retryable error re-thrown as-is; `starved` marks oracle
exhaustion and is unreachable under the theorems' hypotheses. -/
inductive ConnResult where
  | success (s : ConnState) (delays : List Nat)
  | terminal (attempts : Nat) (s : ConnState) (delays : List Nat)
  | fatal (s : ConnState) (delays : List Nat)
  | starved
deriving Repr, DecidableEq

/-- Prepend an awaited delay to a result's delay list. -/
def ConnResult.consDelay (d : Nat) : ConnResult → ConnResult
  | .success s ds => .success s (d :: ds)
  | .terminal n s ds => .terminal n s (d :: ds)
  | .fatal s ds => .fatal s (d :: ds)
  | .starved => .starved

/-- Delay list of a result (empty for `starved`). -/
def ConnResult.delays : ConnResult → List Nat
  | .success _ ds => ds
  | .terminal _ _ ds => ds
  | .fatal _ ds => ds
  | .starved => []

/-- Embeds `DatabaseConnection.connect` together with
`handleConnectionError`.  If a pool exists, return immediately (early
return — no probe, no counter change).  Otherwise execute one attempt per
oracle entry: on success set the pool and reset `reconnectAttempts` to 0; on
a fatal error re-throw (a probe failure still leaves the created pool
assigned); on a retryable error run `handleConnectionError`: if
`reconnectAttempts >= maxReconnectAttempts` throw the terminal error naming
`maxReconnectAttempts`, else increment the counter, await
`reconnectDelay * 2 ^ (reconnectAttempts - 1)` and recursively call
`connect` — which, after a probe failure, finds the pool already assigned
and early-returns. -/
def connect (s : ConnState) : List ConnOutcome → ConnResult
  | [] => if s.pool then .success s [] else .starved
  | o :: rest =>
    if s.pool then .success s []
    else
      match o with
        | .ok => .success { pool := true, reconnectAttempts := 0 } []
        | .createFailFatal => .fatal { pool := false, reconnectAttempts := s.reconnectAttempts } []
        | .pingFailFatal => .fatal { pool := true, reconnectAttempts := s.reconnectAttempts } []
        | .createFailRetryable =>
          if s.reconnectAttempts ≥ maxReconnectAttempts then
            .terminal maxReconnectAttempts
              { pool := false, reconnectAttempts := s.reconnectAttempts } []
          else
            let attempts := s.reconnectAttempts + 1
            let delay := reconnectDelay * 2 ^ (attempts - 1)
            (connect { pool := false, reconnectAttempts := attempts } rest).consDelay delay
        | .pingFailRetryable =>
          if s.reconnectAttempts ≥ maxReconnectAttempts then
            .terminal maxReconnectAttempts
              { pool := true, reconnectAttempts := s.reconnectAttempts } []
          else
            let attempts := s.reconnectAttempts + 1
            let delay := reconnectDelay * 2 ^ (attempts - 1)
            (connect { pool := true, reconnectAttempts := attempts } rest).consDelay delay

/-! ### Scoped connection use: `query` and `transaction`

Modelled as trace-producing functions: the control flow of the
`try`/`catch`/`finally` blocks of `DatabaseConnection.query` and
`DatabaseConnection.transaction` is embedded explicitly, and every operation
on the acquired connection is recorded as an event.  The outcomes of the
driver calls (`execute`, `beginTransaction`, `commit`, `rollback`) and of the
wrapped callback are oracle parameters. -/

/-- Operations performed on the one acquired pooled connection. -/
inductive ConnEvent where
  | acquire
  | beginTx
  | execute
  | commit
  | rollback
  | release
deriving Repr, DecidableEq

/-- Embeds `DatabaseConnection.query`: acquire, execute the one statement
(outcome `execResult`), return rows or re-throw — with the `finally` block
releasing the connection on both paths. -/
def query {α : Type} (execResult : Except String α) :
    Except String α × List ConnEvent :=
  match execResult with
  | .ok rows => (.ok rows, [.acquire, .execute, .release])
  | .error e => (.error e, [.acquire, .execute, .release])

/-- Embeds `DatabaseConnection.transaction`: acquire, `beginTransaction`,
run the callback, `commit` — on any error from begin, the callback or commit,
`rollback` inside its own `try`/`catch` (a rollback failure is logged and
swallowed, so the original error is re-thrown) — with the `finally` block
releasing the connection on every path. -/
def transaction {α : Type} (beginFails : Bool) (fnResult : Except String α)
    (commitFails rollbackFails : Bool) : Except String α × List ConnEvent :=
  if beginFails then
    -- beginTransaction threw: catch block runs rollback (its own failure is
    -- swallowed), the begin error is re-thrown, finally releases.
    (.error "begin failed", [.acquire, .beginTx, .rollback, .release])
  else
    match fnResult with
    | .error e =>
      -- callback threw: rollback (failure swallowed), re-throw the
      -- callback's error, release.
      let rollbackResult : Except String Unit :=
        if rollbackFails then .error "rollback failed" else .ok ()
      match rollbackResult with
      | _ => (.error e, [.acquire, .beginTx, .execute, .rollback, .release])
    | .ok v =>
      if commitFails then
        -- commit threw: rollback (failure swallowed), re-throw the commit
        -- error, release.
        (.error "commit failed",
          [.acquire, .beginTx, .execute, .commit, .rollback, .release])
      else (.ok v, [.acquire, .beginTx, .execute, .commit, .release])

/-! ### Helper lemmas -/

lemma dropWhile_head_not {p : Char → Bool} {l : List Char} {x : Char}
    (h : (l.dropWhile p).head? = some x) : p x = false := by
  have hm := List.head?_dropWhile_not p l
  rw [h] at hm
  exact hm

lemma dropWhile_eq_self_of_head {p : Char → Bool} {l : List Char}
    (h : ∀ x, l.head? = some x → p x = false) : l.dropWhile p = l := by
  cases l with
  | nil => rfl
  | cons a t => simp [List.dropWhile_cons, h a rfl]

lemma dropWhile_dropWhile (p : Char → Bool) (l : List Char) :
    (l.dropWhile p).dropWhile p = l.dropWhile p :=
  dropWhile_eq_self_of_head fun _ hx => dropWhile_head_not hx

lemma getLast?_dropWhile (p : Char → Bool) (l : List Char)
    (h : l.dropWhile p ≠ []) : (l.dropWhile p).getLast? = l.getLast? := by
  induction l with
  | nil => simp at h
  | cons a t ih =>
    rw [List.dropWhile_cons] at h ⊢
    by_cases hpa : p a = true
    · rw [if_pos hpa] at h ⊢
      have ht : t ≠ [] := by
        intro he
        rw [he] at h
        simp at h
      obtain ⟨b, t2, rfl⟩ := List.exists_cons_of_ne_nil ht
      rw [ih h, List.getLast?_cons_cons]
    · rw [if_neg hpa]

lemma trimList_idem (l : List Char) : trimList (trimList l) = trimList l := by
  unfold trimList
  set d := l.dropWhile jsWS with hd
  set m := d.reverse.dropWhile jsWS with hm
  have h1 : m.reverse.dropWhile jsWS = m.reverse := by
    apply dropWhile_eq_self_of_head
    intro x hx
    rw [List.head?_reverse] at hx
    have hm_ne : m ≠ [] := by
      intro he
      rw [he] at hx
      simp at hx
    have h2 : m.getLast? = d.reverse.getLast? := by
      rw [hm]
      exact getLast?_dropWhile _ _ (hm ▸ hm_ne)
    rw [h2, List.getLast?_reverse] at hx
    exact dropWhile_head_not hx
  rw [h1, List.reverse_reverse, hm, dropWhile_dropWhile]

lemma jsTrim_idem (s : String) : jsTrim (jsTrim s) = jsTrim s := by
  show String.mk (trimList (trimList s.data)) = String.mk (trimList s.data)
  exact congrArg String.mk (trimList_idem s.data)

lemma string_eq_empty_iff_data (s : String) : s = "" ↔ s.data = [] := by
  constructor
  · intro h
    rw [h]
  · intro h
    cases s
    simp only at h
    rw [h]

/-- Idempotence of the optional-field sanitization step. -/
lemma keepTrimmed_idem (o : Option String) :
    keepTrimmed (keepTrimmed o) = keepTrimmed o := by
  cases o with
  | none => rfl
  | some s =>
    by_cases hs : s = ""
    · simp [keepTrimmed, hs]
    · by_cases ht : jsTrim s = ""
      · simp [keepTrimmed, hs, ht]
      · simp [keepTrimmed, hs, ht, jsTrim_idem]

/-- The sanitizer of create inputs is idempotent. -/
lemma sanitizeBlacklistEntryInput_idem (input : CreateBlacklistEntryInput) :
    sanitizeBlacklistEntryInput (sanitizeBlacklistEntryInput input) =
      sanitizeBlacklistEntryInput input := by
  unfold sanitizeBlacklistEntryInput
  simp only [CreateBlacklistEntryInput.mk.injEq]
  exact ⟨jsTrim_idem _, keepTrimmed_idem _, keepTrimmed_idem _, jsTrim_idem _⟩

/-- The sanitizer of search criteria is idempotent. -/
lemma sanitizeSearchCriteria_idem (criteria : SearchCriteria) :
    sanitizeSearchCriteria (sanitizeSearchCriteria criteria) =
      sanitizeSearchCriteria criteria := by
  unfold sanitizeSearchCriteria
  simp only [SearchCriteria.mk.injEq]
  exact ⟨keepTrimmed_idem _, keepTrimmed_idem _, keepTrimmed_idem _⟩

lemma jsTrim_empty : jsTrim "" = "" := rfl

lemma keepTrimmed_eq_some_iff {o : Option String} {t : String} :
    keepTrimmed o = some t ↔ ∃ s, o = some s ∧ jsTrim s ≠ "" ∧ t = jsTrim s := by
  cases o with
  | none => simp [keepTrimmed]
  | some s =>
    by_cases hs : s = ""
    · subst hs
      simp [keepTrimmed, jsTrim_empty]
    · by_cases ht : jsTrim s = ""
      · simp [keepTrimmed, hs, ht]
      · simp only [keepTrimmed, hs, ht]
        simp [hs, ht]
        exact eq_comm

lemma keepTrimmed_eq_none_iff {o : Option String} :
    keepTrimmed o = none ↔ o = none ∨ ∃ s, o = some s ∧ jsTrim s = "" := by
  cases o with
  | none => simp [keepTrimmed]
  | some s =>
    by_cases hs : s = ""
    · subst hs
      simp [keepTrimmed, jsTrim_empty]
    · by_cases ht : jsTrim s = ""
      · simp [keepTrimmed, hs, ht]
      · simp [keepTrimmed, hs, ht]

/-! ### Claims -/

/-- Claim C9, counterexample.  The claim states that every field of a
sanitized object that is empty or whitespace-only after trimming is absent
from the result rather than present as an empty string.  For the required
`identifier` field of a create input this fails: `identifier: " "` is
whitespace-only, yet `sanitizeBlacklistEntryInput` returns it present and
equal to the empty string (`input.identifier?.trim() || ''`). -/
theorem C9_counterexample :
    jsTrim " " = "" ∧
    (sanitizeBlacklistEntryInput
      { identifier := " ", firstName := none, lastName := none,
        createdBy := "U1" }).identifier = "" := by
  exact ⟨rfl, rfl⟩

/-- Claim C9, amended: every string field of the result of
`sanitizeBlacklistEntryInput` / `sanitizeSearchCriteria` is trimmed; the
optional fields (both entry name fields and all three criteria fields) are
absent whenever the original was absent or whitespace-only after trimming,
and otherwise present as the trimmed original; the required `identifier` and
`createdBy` fields of a create input remain present as their trims — the
empty string when the original was empty or whitespace-only. -/
theorem C9_sanitizers_amended (input : CreateBlacklistEntryInput)
    (criteria : SearchCriteria) :
    ((sanitizeBlacklistEntryInput input).identifier = jsTrim input.identifier ∧
     (sanitizeBlacklistEntryInput input).createdBy = jsTrim input.createdBy) ∧
    ((sanitizeBlacklistEntryInput input).firstName = keepTrimmed input.firstName ∧
     (sanitizeBlacklistEntryInput input).lastName = keepTrimmed input.lastName ∧
     (sanitizeSearchCriteria criteria).identifier = keepTrimmed criteria.identifier ∧
     (sanitizeSearchCriteria criteria).firstName = keepTrimmed criteria.firstName ∧
     (sanitizeSearchCriteria criteria).lastName = keepTrimmed criteria.lastName) ∧
    (∀ o : Option String,
      (∀ t, keepTrimmed o = some t ↔ ∃ s, o = some s ∧ jsTrim s ≠ "" ∧ t = jsTrim s) ∧
      (keepTrimmed o = none ↔ o = none ∨ ∃ s, o = some s ∧ jsTrim s = "")) :=
  ⟨⟨rfl, rfl⟩, ⟨rfl, rfl, rfl, rfl, rfl⟩,
    fun _ => ⟨fun _ => keepTrimmed_eq_some_iff, keepTrimmed_eq_none_iff⟩⟩

/-- Claim C10: both sanitizers are idempotent, and consequently the
repository's defensive re-sanitization of criteria and entries already
sanitized by the service is a no-op: `repoSearch` and `repoCreate` compute
the same result on a raw input and on its sanitized form. -/
theorem C10_sanitizers_idempotent :
    (∀ input : CreateBlacklistEntryInput,
      sanitizeBlacklistEntryInput (sanitizeBlacklistEntryInput input) =
        sanitizeBlacklistEntryInput input) ∧
    (∀ criteria : SearchCriteria,
      sanitizeSearchCriteria (sanitizeSearchCriteria criteria) =
        sanitizeSearchCriteria criteria) ∧
    (∀ (st : Store) (criteria : SearchCriteria),
      repoSearch st (sanitizeSearchCriteria criteria) = repoSearch st criteria) ∧
    (∀ (st : Store) (input : CreateBlacklistEntryInput) (insertFails : Bool),
      repoCreate st (sanitizeBlacklistEntryInput input) insertFails =
        repoCreate st input insertFails) := by
  refine ⟨sanitizeBlacklistEntryInput_idem, sanitizeSearchCriteria_idem, ?_, ?_⟩
  · intro st criteria
    simp only [repoSearch, sanitizeSearchCriteria_idem]
  · intro st input insertFails
    simp only [repoCreate, sanitizeBlacklistEntryInput_idem]

lemma mem_iteChain {α : Type} {m a b : α} {p q : Prop} [Decidable p]
    [Decidable q] :
    (m ∈ if p then [a] else if q then [b] else []) ↔
      (p ∧ m = a) ∨ (¬p ∧ q ∧ m = b) := by
  split_ifs with h1 h2 <;> simp_all

lemma mem_iteSingle {α : Type} {m a : α} {p : Prop} [Decidable p] :
    (m ∈ if p then [a] else []) ↔ p ∧ m = a := by
  split_ifs with h1 <;> simp_all

lemma isEmpty_validation (v : ValidationResult)
    (h : v.isValid = v.errors.isEmpty) : v.isValid = true ↔ v.errors = [] := by
  rw [h, List.isEmpty_iff]

set_option maxRecDepth 2000 in
/-- Claim C8, counterexample.  The claim states the errors list contains a
message for every violated constraint, not only the first one found.  An
identifier of 300 blanks violates both the non-emptiness constraint and the
255-character bound, but the validator's `else if` chain reports only the
first: the length message is missing. -/
theorem C8_counterexample :
    (String.mk (List.replicate 300 ' ')).data.length > 255 ∧
    validateBlacklistEntry
      { identifier := String.mk (List.replicate 300 ' '), firstName := none,
        lastName := none, createdBy := "U1" } =
      { isValid := false, errors := ["Identifier cannot be empty"] } ∧
    "Identifier cannot exceed 255 characters" ∉
      (validateBlacklistEntry
        { identifier := String.mk (List.replicate 300 ' '), firstName := none,
          lastName := none, createdBy := "U1" }).errors := by
  refine ⟨by decide, by decide, by decide⟩

/-- Claim C8, amended.  Both validators return `valid` exactly when the
errors list is empty, and collect violations across all fields (an error in
one field never suppresses the message of another field); within a single
field the checks form an `else if` chain, so the field contributes only the
first applicable message: the length-bound message of a field appears exactly
when its emptiness check passed and the bound (255 for identifier, 100 for
each name, 20 for createdBy) is exceeded; for search criteria the
at-least-one-field-provided rule additionally contributes its message. -/
theorem C8_validators_amended :
    (∀ input : CreateBlacklistEntryInput,
      ((validateBlacklistEntry input).isValid = true ↔
        (validateBlacklistEntry input).errors = []) ∧
      ∀ m : String, m ∈ (validateBlacklistEntry input).errors ↔
        ((jsTrim input.identifier).data.length = 0 ∧
          m = "Identifier cannot be empty") ∨
        (¬(jsTrim input.identifier).data.length = 0 ∧
          input.identifier.data.length > 255 ∧
          m = "Identifier cannot exceed 255 characters") ∨
        ((jsTrim input.createdBy).data.length = 0 ∧
          m = "CreatedBy cannot be empty") ∨
        (¬(jsTrim input.createdBy).data.length = 0 ∧
          input.createdBy.data.length > 20 ∧
          m = "CreatedBy cannot exceed 20 characters") ∨
        ((∃ s, input.firstName = some s ∧ s.data.length > 100) ∧
          m = "FirstName cannot exceed 100 characters") ∨
        ((∃ s, input.lastName = some s ∧ s.data.length > 100) ∧
          m = "LastName cannot exceed 100 characters")) ∧
    (∀ criteria : SearchCriteria,
      ((validateSearchCriteria criteria).isValid = true ↔
        (validateSearchCriteria criteria).errors = []) ∧
      ∀ m : String, m ∈ (validateSearchCriteria criteria).errors ↔
        ((¬truthy criteria.identifier = true ∧ ¬truthy criteria.firstName = true ∧
          ¬truthy criteria.lastName = true) ∧
          m = "At least one search criterion must be provided (identifier, firstName, or lastName)") ∨
        ((∃ s, criteria.identifier = some s ∧ (jsTrim s).data.length = 0) ∧
          m = "Identifier cannot be empty when provided") ∨
        ((∃ s, criteria.identifier = some s ∧ ¬(jsTrim s).data.length = 0 ∧
          s.data.length > 255) ∧ m = "Identifier cannot exceed 255 characters") ∨
        ((∃ s, criteria.firstName = some s ∧ (jsTrim s).data.length = 0) ∧
          m = "FirstName cannot be empty when provided") ∨
        ((∃ s, criteria.firstName = some s ∧ ¬(jsTrim s).data.length = 0 ∧
          s.data.length > 100) ∧ m = "FirstName cannot exceed 100 characters") ∨
        ((∃ s, criteria.lastName = some s ∧ (jsTrim s).data.length = 0) ∧
          m = "LastName cannot be empty when provided") ∨
        ((∃ s, criteria.lastName = some s ∧ ¬(jsTrim s).data.length = 0 ∧
          s.data.length > 100) ∧ m = "LastName cannot exceed 100 characters")) := by
  constructor
  · intro input
    constructor
    · exact isEmpty_validation _ rfl
    · intro m
      cases hf : input.firstName <;> cases hl : input.lastName <;>
        simp [validateBlacklistEntry, hf, hl, mem_iteChain, mem_iteSingle,
          List.mem_append, or_assoc, and_assoc]
  · intro criteria
    constructor
    · exact isEmpty_validation _ rfl
    · intro m
      cases hi : criteria.identifier <;> cases hf : criteria.firstName <;>
        cases hl : criteria.lastName <;>
        simp [validateSearchCriteria, hi, hf, hl, mem_iteChain, mem_iteSingle,
          List.mem_append, or_assoc, and_assoc]

lemma string_data_append (a b : String) : (a ++ b).data = a.data ++ b.data := by
  cases a
  cases b
  rfl

lemma isPrefixOf_append_self (u t : List Char) : u.isPrefixOf (u ++ t) = true := by
  induction u with
  | nil => simp [List.isPrefixOf]
  | cons a u ih => simp [List.isPrefixOf, ih]

lemma containsSeg_of_isPrefixOf {sub l : List Char}
    (h : sub.isPrefixOf l = true) : containsSeg sub l = true := by
  cases l with
  | nil =>
    cases sub with
    | nil => rfl
    | cons a u => simp [List.isPrefixOf] at h
  | cons c rest => simp [containsSeg, h]

/-- The duplicate-entry message always contains the substring
`Duplicate entry`, whatever the identifier, so the `catch` block of
`addEntry` always re-throws it. -/
lemma jsIncludes_dupMsg (s : String) :
    jsIncludes ("Duplicate entry: An entry with identifier \"" ++ s ++
      "\" already exists") "Duplicate entry" = true := by
  unfold jsIncludes
  apply containsSeg_of_isPrefixOf
  rw [string_data_append, string_data_append]
  have hsplit : ("Duplicate entry: An entry with identifier \"" : String).data =
      ("Duplicate entry" : String).data ++
        (": An entry with identifier \"" : String).data := by rfl
  rw [hsplit, List.append_assoc, List.append_assoc]
  exact isPrefixOf_append_self _ _

lemma sqlCiEq_self (x : String) : sqlCiEq x x = true := by
  simp [sqlCiEq]

/-- A valid entry has a non-blank identifier: the validator's first check
would otherwise have produced an error. -/
lemma valid_entry_identifier_trim_ne (input : CreateBlacklistEntryInput)
    (h : (validateBlacklistEntry input).isValid = true) :
    jsTrim input.identifier ≠ "" := by
  intro hEq
  have herrs : (validateBlacklistEntry input).errors = [] :=
    (isEmpty_validation _ rfl).mp h
  have hlen : (jsTrim input.identifier).data.length = 0 := by
    rw [hEq]
    rfl
  simp [validateBlacklistEntry, hlen] at herrs

/-- Computation of `checkDuplicate` on a non-blank, already-trimmed
identifier. -/
lemma checkDuplicate_of_ne {st : Store} {s : String} {flag : Bool}
    (hne : s ≠ "") (hidem : jsTrim s = s) :
    checkDuplicate st s flag =
      if flag then .error "Failed to check for duplicate entry"
      else .ok (st.rows.any fun r => sqlCiEq r.identifier s) := by
  unfold checkDuplicate repoExists
  simp only [hidem]
  have hbeq : (s == "") = false := by
    simp [hne]
  rw [hbeq]
  cases flag with
  | true => simp
  | false => simp

/-- Claim C1: for every create input that passes validation, if an entry
with the (sanitized) identifier is already stored, `addEntry` rejects with
the duplicate-entry error and leaves the store unchanged (no insert, same
entry count); and if the pre-insert existence check fails for an
infrastructure reason instead, `addEntry` fails with the distinct error
`Failed to verify entry uniqueness`, again leaving the store unchanged. -/
theorem C1_addEntry_duplicate_and_uniqueness_failure
    (st : Store) (entry : CreateBlacklistEntryInput) (insertFails : Bool)
    (hvalid : (validateBlacklistEntry (sanitizeBlacklistEntryInput entry)).isValid = true) :
    ((∃ r ∈ st.rows, r.identifier = (sanitizeBlacklistEntryInput entry).identifier) →
      addEntry st entry false insertFails =
        (.error ("Duplicate entry: An entry with identifier \"" ++
          (sanitizeBlacklistEntryInput entry).identifier ++ "\" already exists"), st)) ∧
    (addEntry st entry true insertFails =
      (.error "Failed to verify entry uniqueness", st)) := by
  have hne : (sanitizeBlacklistEntryInput entry).identifier ≠ "" := by
    have htr := valid_entry_identifier_trim_ne _ hvalid
    intro h0
    apply htr
    rw [h0]
    rfl
  have hidem : jsTrim (sanitizeBlacklistEntryInput entry).identifier =
      (sanitizeBlacklistEntryInput entry).identifier := jsTrim_idem entry.identifier
  have hinc : jsIncludes "Failed to check for duplicate entry" "Duplicate entry" = false := by
    rfl
  constructor
  · rintro ⟨r, hr, hrid⟩
    have hdup : (st.rows.any fun row => sqlCiEq row.identifier
        (sanitizeBlacklistEntryInput entry).identifier) = true := by
      rw [List.any_eq_true]
      exact ⟨r, hr, by rw [hrid]; exact sqlCiEq_self _⟩
    simp only [addEntry, hvalid, Bool.not_true, Bool.false_eq_true, if_false,
      checkDuplicate_of_ne hne hidem, if_neg, hdup, jsIncludes_dupMsg]
    simp [jsIncludes_dupMsg]
  · simp only [addEntry, hvalid, Bool.not_true, Bool.false_eq_true, if_false,
      checkDuplicate_of_ne hne hidem]
    simp [hinc]

/-- Demo row used by the C1 witness. -/
def dupRow : StoredRow :=
  { id := 1, identifier := "dup1", first_name := none, last_name := none,
    created_at := 0, created_by := "U1" }

/-- Demo store used by the C1 witness. -/
def dupStore : Store := { rows := [dupRow], nextId := 2, clock := 1 }

/-- Demo input used by the C1 witness. -/
def dupInput : CreateBlacklistEntryInput :=
  { identifier := "dup1", firstName := none, lastName := none, createdBy := "U1" }

/-- Witness for C1 at a concrete store and input. -/
theorem C1_witness :
    (addEntry dupStore dupInput false false =
      (.error "Duplicate entry: An entry with identifier \"dup1\" already exists",
        dupStore)) ∧
    (addEntry dupStore dupInput true false =
      (.error "Failed to verify entry uniqueness", dupStore)) := by
  have h := C1_addEntry_duplicate_and_uniqueness_failure dupStore dupInput false
    (by decide)
  exact ⟨h.1 ⟨dupRow, by decide, by decide⟩, h.2⟩

lemma jsOrNull_keepTrimmed (o : Option String) :
    jsOrNull (keepTrimmed o) = keepTrimmed o := by
  cases o with
  | none => rfl
  | some s =>
    by_cases hs : s = ""
    · simp [keepTrimmed, hs, jsOrNull]
    · by_cases ht : jsTrim s = ""
      · simp [keepTrimmed, hs, ht, jsOrNull]
      · simp [keepTrimmed, hs, ht, jsOrNull]

lemma mapRowToEntry_fields (r : StoredRow) :
    (mapRowToEntry r).id = r.id ∧ (mapRowToEntry r).identifier = r.identifier ∧
    (mapRowToEntry r).firstName = jsOrNull r.first_name ∧
    (mapRowToEntry r).lastName = jsOrNull r.last_name ∧
    (mapRowToEntry r).createdAt = r.created_at ∧
    (mapRowToEntry r).createdBy = r.created_by := by
  cases hf : r.first_name <;> cases hl : r.last_name <;>
    simp [mapRowToEntry, jsOrNull, hf, hl]

/-- The row inserted by a successful `addEntry` for a sanitized input. -/
def insertedRow (st : Store) (entry : CreateBlacklistEntryInput) : StoredRow :=
  { id := st.nextId
    identifier := (sanitizeBlacklistEntryInput entry).identifier
    first_name := jsOrNull (sanitizeBlacklistEntryInput entry).firstName
    last_name := jsOrNull (sanitizeBlacklistEntryInput entry).lastName
    created_at := st.clock
    created_by := (sanitizeBlacklistEntryInput entry).createdBy }

/-- Computation of `addEntry` on the success path: validation passes, no
duplicate, both statements succeed. -/
lemma addEntry_success (st : Store) (entry : CreateBlacklistEntryInput)
    (hvalid : (validateBlacklistEntry (sanitizeBlacklistEntryInput entry)).isValid = true)
    (hany : (st.rows.any fun r =>
      sqlCiEq r.identifier (sanitizeBlacklistEntryInput entry).identifier) = false) :
    addEntry st entry false false =
      (.ok st.nextId,
        { rows := st.rows ++ [insertedRow st entry],
          nextId := st.nextId + 1, clock := st.clock + 1 }) := by
  have hne : (sanitizeBlacklistEntryInput entry).identifier ≠ "" := by
    have htr := valid_entry_identifier_trim_ne _ hvalid
    intro h0
    apply htr
    rw [h0]
    rfl
  have hidem : jsTrim (sanitizeBlacklistEntryInput entry).identifier =
      (sanitizeBlacklistEntryInput entry).identifier := jsTrim_idem entry.identifier
  simp only [addEntry, hvalid, Bool.not_true, Bool.false_eq_true, if_false,
    checkDuplicate_of_ne hne hidem]
  simp only [Bool.false_eq_true, if_false, hany]
  simp [repoCreate, sanitizeBlacklistEntryInput_idem, hvalid, insertedRow]

/-- Claim C2: for every create input that passes validation after
sanitization (with no equal identifier already stored and the database
statements succeeding), `addEntry` succeeds with some id, and `getById` on
that id returns an entry whose `identifier`, `firstName`, `lastName` and
`createdBy` equal the sanitized input — trimmed strings, with optional name
fields that were empty or whitespace-only absent rather than present as
null or empty string. -/
theorem C2_addEntry_getById_roundtrip (st : Store)
    (entry : CreateBlacklistEntryInput) (hwf : Store.wf st)
    (hvalid : (validateBlacklistEntry (sanitizeBlacklistEntryInput entry)).isValid = true)
    (hnodup : ∀ r ∈ st.rows,
      sqlCiEq r.identifier (sanitizeBlacklistEntryInput entry).identifier = false) :
    ∃ entryId st', addEntry st entry false false = (.ok entryId, st') ∧
      ∃ e, getById st' (entryId : Int) = .ok (some e) ∧
        e.identifier = (sanitizeBlacklistEntryInput entry).identifier ∧
        e.firstName = (sanitizeBlacklistEntryInput entry).firstName ∧
        e.lastName = (sanitizeBlacklistEntryInput entry).lastName ∧
        e.createdBy = (sanitizeBlacklistEntryInput entry).createdBy := by
  have hany : (st.rows.any fun r =>
      sqlCiEq r.identifier (sanitizeBlacklistEntryInput entry).identifier) = false := by
    by_contra hc
    rw [Bool.not_eq_false, List.any_eq_true] at hc
    obtain ⟨r, hr, hp⟩ := hc
    rw [hnodup r hr] at hp
    exact Bool.false_ne_true hp
  refine ⟨st.nextId,
    { rows := st.rows ++ [insertedRow st entry],
      nextId := st.nextId + 1, clock := st.clock + 1 },
    addEntry_success st entry hvalid hany, mapRowToEntry (insertedRow st entry), ?_, ?_, ?_, ?_, ?_⟩
  · have hpos : ¬((st.nextId : Int) ≤ 0) := by
      have h1 := hwf.1
      omega
    have hfilterOld : st.rows.filter (fun r => (r.id : Int) == (st.nextId : Int)) = [] := by
      rw [List.filter_eq_nil_iff]
      intro r hr
      have hlt := hwf.2 r hr
      simp only [beq_iff_eq, Int.natCast_inj]
      omega
    have hfilterNew : ([insertedRow st entry].filter
        (fun r => (r.id : Int) == (st.nextId : Int))) = [insertedRow st entry] := by
      simp [insertedRow]
    simp only [getById, repoFindById, if_neg hpos, List.filter_append,
      hfilterOld, hfilterNew, List.nil_append, List.head?_cons]
    rfl
  · exact ((mapRowToEntry_fields _).2.1).trans rfl
  · have h := (mapRowToEntry_fields (insertedRow st entry)).2.2.1
    rw [h]
    show jsOrNull (jsOrNull (keepTrimmed entry.firstName)) = keepTrimmed entry.firstName
    rw [jsOrNull_keepTrimmed, jsOrNull_keepTrimmed]
  · have h := (mapRowToEntry_fields (insertedRow st entry)).2.2.2.1
    rw [h]
    show jsOrNull (jsOrNull (keepTrimmed entry.lastName)) = keepTrimmed entry.lastName
    rw [jsOrNull_keepTrimmed, jsOrNull_keepTrimmed]
  · exact (mapRowToEntry_fields _).2.2.2.2.2

/-- Demo input used by the C2 witness: untrimmed identifier and first name,
whitespace-only last name. -/
def roundtripInput : CreateBlacklistEntryInput :=
  { identifier := " 0812345678 ", firstName := some " John ",
    lastName := some "  ", createdBy := "U1" }

/-- Witness for C2 at the empty store and a concrete input. -/
theorem C2_witness :
    ∃ entryId st',
      addEntry { rows := [], nextId := 1, clock := 0 } roundtripInput false false =
        (.ok entryId, st') ∧
      ∃ e, getById st' (entryId : Int) = .ok (some e) ∧
        e.identifier = (sanitizeBlacklistEntryInput roundtripInput).identifier ∧
        e.firstName = (sanitizeBlacklistEntryInput roundtripInput).firstName ∧
        e.lastName = (sanitizeBlacklistEntryInput roundtripInput).lastName ∧
        e.createdBy = (sanitizeBlacklistEntryInput roundtripInput).createdBy :=
  C2_addEntry_getById_roundtrip { rows := [], nextId := 1, clock := 0 }
    roundtripInput (by constructor <;> simp) (by decide) (by simp)

/-- Claim C3: `removeEntry` raises a validation error on every id ≤ 0;
returns `false` without issuing a `DELETE` on every positive id with no
stored entry; and on every positive id with a stored entry returns `true`
exactly when the delete affected at least one row (which it does — the
matching rows are at least one), after which `getById` on the id returns
nothing. -/
theorem C3_removeEntry_semantics (st : Store) (id : Int) :
    (id ≤ 0 →
      removeEntry st id =
        { result := .error "Invalid ID: ID must be a positive number",
          store := st, deleteIssued := false }) ∧
    (0 < id → (∀ r ∈ st.rows, (r.id : Int) ≠ id) →
      removeEntry st id =
        { result := .ok false, store := st, deleteIssued := false }) ∧
    (0 < id → (∃ r ∈ st.rows, (r.id : Int) = id) →
      (removeEntry st id).result = .ok true ∧
      (removeEntry st id).deleteIssued = true ∧
      1 ≤ (st.rows.filter fun r => (r.id : Int) == id).length ∧
      getById (removeEntry st id).store id = .ok none) := by
  refine ⟨?_, ?_, ?_⟩
  · intro h
    simp [removeEntry, h]
  · intro hpos hnone
    have hneg : ¬id ≤ 0 := by omega
    have hfilter : st.rows.filter (fun r => (r.id : Int) == id) = [] := by
      rw [List.filter_eq_nil_iff]
      intro r hr
      simp [hnone r hr]
    simp only [removeEntry, repoFindById, if_neg hneg, hfilter]
    rfl
  · intro hpos hsome
    obtain ⟨r, hr, he⟩ := hsome
    have hneg : ¬id ≤ 0 := by omega
    have hmem : r ∈ st.rows.filter (fun row => (row.id : Int) == id) :=
      List.mem_filter.mpr ⟨hr, by simp [he]⟩
    have hne_nil : st.rows.filter (fun row => (row.id : Int) == id) ≠ [] :=
      List.ne_nil_of_mem hmem
    have hlen : 1 ≤ (st.rows.filter fun row => (row.id : Int) == id).length := by
      have := List.length_pos.mpr hne_nil
      omega
    obtain ⟨a, t, hat⟩ := List.exists_cons_of_ne_nil hne_nil
    have hdel : 0 < (st.rows.filter fun row => (row.id : Int) == id).length := by
      omega
    have hdecide : decide
        (0 < (st.rows.filter fun row => (row.id : Int) == id).length) = true :=
      decide_eq_true hdel
    have hremove : removeEntry st id =
        { result := .ok true,
          store := { st with rows := st.rows.filter fun row => !((row.id : Int) == id) },
          deleteIssued := true } := by
      simp only [removeEntry, repoFindById, repoDeleteById, if_neg hneg, hat,
        List.head?_cons, Option.map_some']
      simp [hdecide]
    refine ⟨by rw [hremove], by rw [hremove], hlen, ?_⟩
    rw [hremove]
    have hfilter2 : (st.rows.filter fun row => !((row.id : Int) == id)).filter
        (fun row => (row.id : Int) == id) = [] := by
      rw [List.filter_eq_nil_iff]
      intro a2 ha2
      have hnot := (List.mem_filter.mp ha2).2
      simp only [Bool.not_eq_eq_eq_not, Bool.not_true] at hnot
      simp [hnot]
    simp only [getById, repoFindById, if_neg hneg, hfilter2]
    rfl

/-- Demo row used by the C3 witness. -/
def removeRow : StoredRow :=
  { id := 1, identifier := "a", first_name := none, last_name := none,
    created_at := 0, created_by := "U1" }

/-- Demo store used by the C3 witness. -/
def removeStore : Store := { rows := [removeRow], nextId := 2, clock := 1 }

/-- Witness for C3 at a concrete store, exercising all three branches. -/
theorem C3_witness :
    (removeEntry removeStore 0 =
      { result := .error "Invalid ID: ID must be a positive number",
        store := removeStore, deleteIssued := false }) ∧
    (removeEntry removeStore 5 =
      { result := .ok false, store := removeStore, deleteIssued := false }) ∧
    ((removeEntry removeStore 1).result = .ok true ∧
      getById (removeEntry removeStore 1).store 1 = .ok none) := by
  refine ⟨(C3_removeEntry_semantics removeStore 0).1 (by decide),
    (C3_removeEntry_semantics removeStore 5).2.1 (by decide) (by decide), ?_, ?_⟩
  · exact ((C3_removeEntry_semantics removeStore 1).2.2 (by decide)
      ⟨removeRow, by decide, by decide⟩).1
  · exact ((C3_removeEntry_semantics removeStore 1).2.2 (by decide)
      ⟨removeRow, by decide, by decide⟩).2.2.2

/-- When the pool flag is set, `connect` returns immediately. -/
lemma connect_pool_true (s : ConnState) (outcomes : List ConnOutcome)
    (h : s.pool = true) : connect s outcomes = .success s [] := by
  cases outcomes <;> simp [connect, h]

/-- Demo row used by the C7 theorems: stored first name `Johnson`. -/
def johnsonRow : StoredRow :=
  { id := 1, identifier := "0812345678", first_name := some "Johnson",
    last_name := none, created_at := 0, created_by := "U1" }

/-- Demo store used by the C7 theorems. -/
def johnsonStore : Store := { rows := [johnsonRow], nextId := 2, clock := 1 }

/-- Claim C7, counterexample.  The claim says an entry is returned exactly
when its stored name contains the fragment with identical character case.
The table is declared `COLLATE utf8mb4_unicode_ci`, under which `LIKE` is
case-insensitive: the stored first name `Johnson` does not contain the
fragment `JOHN` with identical case, yet the search returns the entry. -/
theorem C7_counterexample :
    jsIncludes "Johnson" "JOHN" = false ∧
    repoSearch johnsonStore
      { identifier := none, firstName := some "JOHN", lastName := none } =
      .ok [mapRowToEntry johnsonRow] := by
  exact ⟨by decide, by rfl⟩

/-- Claim C7, amended: name search matches by case-insensitive substring
containment (per the table's `utf8mb4_unicode_ci` collation): for every
store and every trimmed non-empty fragment within the length bound, the
result is exactly the stored rows whose `first_name` is non-null and
contains the fragment up to case, newest first; in particular an entry with
first name `Johnson` is returned both for the fragment `John` and for the
fragment `john`. -/
theorem C7_search_ci_substring (st : Store) (f : String)
    (htrim : jsTrim f = f) (hne : f ≠ "") (hlen : f.data.length ≤ 100) :
    repoSearch st { identifier := none, firstName := some f, lastName := none } =
      .ok (((st.rows.filter fun r =>
        match r.first_name with
        | some n => sqlCiLikeContains n f
        | none => false).reverse).map mapRowToEntry) ∧
    sqlCiLikeContains "Johnson" "John" = true ∧
    sqlCiLikeContains "Johnson" "john" = true := by
  have hsan : sanitizeSearchCriteria
      { identifier := none, firstName := some f, lastName := none } =
      { identifier := none, firstName := some f, lastName := none } := by
    simp [sanitizeSearchCriteria, keepTrimmed, hne, htrim]
  have hdata : f.data ≠ [] := fun h => hne ((string_eq_empty_iff_data f).mpr h)
  have hlen0 : ¬(jsTrim f).data.length = 0 := by
    rw [htrim]
    intro h0
    exact hdata (List.length_eq_zero.mp h0)
  have hnot100 : ¬f.data.length > 100 := by omega
  have hlen0' : ¬(jsTrim f).length = 0 := hlen0
  have hnot100' : ¬100 < f.length := hnot100
  have hvalid : (validateSearchCriteria
      { identifier := none, firstName := some f, lastName := none }).isValid = true := by
    simp [validateSearchCriteria, truthy, hne, hlen0, hnot100, hlen0', hnot100']
  have hmatch : ∀ r ∈ st.rows,
      rowMatches { identifier := none, firstName := some f, lastName := none } r =
        (match r.first_name with
         | some n => sqlCiLikeContains n f
         | none => false) := by
    intro r _
    cases hf : r.first_name <;> simp [rowMatches, hne, hf]
  refine ⟨?_, by decide, by decide⟩
  simp only [repoSearch, hsan, hvalid, Bool.not_true, Bool.false_eq_true, if_false,
    List.filter_congr hmatch]

/-- Witness for C7 at the concrete fragment `John` and the demo store. -/
theorem C7_witness :
    repoSearch johnsonStore
      { identifier := none, firstName := some "John", lastName := none } =
      .ok [mapRowToEntry johnsonRow] := by
  have h := (C7_search_ci_substring johnsonStore "John" (by decide) (by decide)
    (by decide)).1
  rw [h]
  rfl

/-- Claim C4, counterexample.  The claim says that after any successful
connect the attempt counter is reset to zero.  On a retryable probe failure
the created pool is left assigned, so the retry's recursive `connect` call
early-returns successfully without resetting the counter: starting from no
pool and zero attempts, one retryable probe failure lets `connect` succeed
(after one 1000 ms wait) with the counter at 1, not 0 — and with the pool
never successfully probed. -/
theorem C4_counterexample :
    connect { pool := false, reconnectAttempts := 0 } [.pingFailRetryable] =
      .success { pool := true, reconnectAttempts := 1 } [1000] := by
  rfl

/-- Claim C4, amended.  On retryable pool-creation failures `connect`
retries at most 5 times (`maxReconnectAttempts`), waiting before retry `n`
(n = 1..5) a delay of `1000 · 2^(n−1)` ms, and once the budget is exceeded
raises the terminal error naming the attempt count; the number of backoff
waits of any `connect` call never exceeds the remaining attempt budget; a
connect whose attempt probes successfully resets the counter to zero; but
after a retryable probe failure the recursive retry finds the pool already
assigned and returns successfully with the counter incremented, not reset. -/
theorem C4_reconnect_backoff_amended :
    (∀ rest : List ConnOutcome,
      connect { pool := false, reconnectAttempts := 0 }
        (List.replicate 6 .createFailRetryable ++ rest) =
        .terminal maxReconnectAttempts { pool := false, reconnectAttempts := 5 }
          [1000, 2000, 4000, 8000, 16000]) ∧
    (∀ (s : ConnState) (outcomes : List ConnOutcome),
      (connect s outcomes).delays.length ≤
        maxReconnectAttempts - s.reconnectAttempts) ∧
    (∀ (rest : List ConnOutcome) (s : ConnState), s.pool = false →
      connect s (.ok :: rest) =
        .success { pool := true, reconnectAttempts := 0 } []) ∧
    (∀ (rest : List ConnOutcome) (a : Nat), a < maxReconnectAttempts →
      connect { pool := false, reconnectAttempts := a }
        (.pingFailRetryable :: rest) =
        .success { pool := true, reconnectAttempts := a + 1 }
          [reconnectDelay * 2 ^ a]) := by
  refine ⟨?_, ?_, ?_, ?_⟩
  · intro rest
    simp [connect, List.replicate, maxReconnectAttempts, reconnectDelay,
      ConnResult.consDelay, connect_pool_true]
  · intro s outcomes
    induction outcomes generalizing s with
    | nil =>
      by_cases h : s.pool = true <;> simp [connect, h, ConnResult.delays]
    | cons o rest ih =>
      by_cases h : s.pool = true
      · simp [connect, h, ConnResult.delays]
      · have h' : s.pool = false := by
          cases hp : s.pool
          · rfl
          · exact absurd hp h
        cases o with
        | ok => simp [connect, h', ConnResult.delays]
        | createFailFatal => simp [connect, h', ConnResult.delays]
        | pingFailFatal => simp [connect, h', ConnResult.delays]
        | createFailRetryable =>
          by_cases hb : s.reconnectAttempts ≥ maxReconnectAttempts
          · simp [connect, h', hb, ConnResult.delays]
          · have hlt : s.reconnectAttempts < maxReconnectAttempts := by omega
            have hrec := ih ⟨false, s.reconnectAttempts + 1⟩
            simp only [connect, h', if_neg hb, Bool.false_eq_true, if_false]
            cases hc : connect ⟨false, s.reconnectAttempts + 1⟩ rest <;>
              rw [hc] at hrec <;>
              simp [ConnResult.consDelay, ConnResult.delays] at hrec ⊢ <;>
              omega
        | pingFailRetryable =>
          by_cases hb : s.reconnectAttempts ≥ maxReconnectAttempts
          · simp [connect, h', hb, ConnResult.delays]
          · have hlt : s.reconnectAttempts < maxReconnectAttempts := by omega
            have hrec := ih ⟨true, s.reconnectAttempts + 1⟩
            simp only [connect, h', if_neg hb, Bool.false_eq_true, if_false]
            cases hc : connect ⟨true, s.reconnectAttempts + 1⟩ rest <;>
              rw [hc] at hrec <;>
              simp [ConnResult.consDelay, ConnResult.delays] at hrec ⊢ <;>
              omega
  · intro rest s h
    simp [connect, h]
  · intro rest a ha
    have hb : ¬a ≥ maxReconnectAttempts := by omega
    simp [connect, hb, connect_pool_true, ConnResult.consDelay]

/-- Witness for C4 at concrete oracles: the exhausted-budget run and a
probe-failure retry from attempt count 2. -/
theorem C4_witness :
    connect { pool := false, reconnectAttempts := 0 }
      (List.replicate 6 .createFailRetryable ++ []) =
      .terminal maxReconnectAttempts { pool := false, reconnectAttempts := 5 }
        [1000, 2000, 4000, 8000, 16000] ∧
    connect { pool := false, reconnectAttempts := 2 } [.pingFailRetryable] =
      .success { pool := true, reconnectAttempts := 3 }
        [reconnectDelay * 2 ^ 2] ∧
    connect { pool := false, reconnectAttempts := 4 } [.ok] =
      .success { pool := true, reconnectAttempts := 0 } [] ∧
    (connect { pool := false, reconnectAttempts := 0 }
      (List.replicate 9 .createFailRetryable)).delays.length ≤
        maxReconnectAttempts - 0 :=
  ⟨C4_reconnect_backoff_amended.1 [],
    C4_reconnect_backoff_amended.2.2.2 [] 2 (by decide),
    C4_reconnect_backoff_amended.2.2.1 [] ⟨false, 4⟩ rfl,
    C4_reconnect_backoff_amended.2.1 ⟨false, 0⟩ (List.replicate 9 .createFailRetryable)⟩

/-- Claim C5: `transaction(fn)` acquires one connection, begins a
transaction, runs the callback on it, commits and returns the callback's
result on success, and rolls back when the callback throws; a failure of
the rollback itself does not mask the callback's error — the propagated
error is the original one for both rollback outcomes; and on every path the
connection is released at the end. -/
theorem C5_transaction_semantics {α : Type} :
    (∀ (v : α) (rollbackFails : Bool),
      transaction false (.ok v) false rollbackFails =
        (.ok v, [.acquire, .beginTx, .execute, .commit, .release])) ∧
    (∀ (e : String) (commitFails rollbackFails : Bool),
      transaction false (.error e : Except String α) commitFails rollbackFails =
        (.error e, [.acquire, .beginTx, .execute, .rollback, .release])) := by
  constructor
  · intro v rollbackFails
    cases rollbackFails <;> rfl
  · intro e commitFails rollbackFails
    cases commitFails <;> cases rollbackFails <;> rfl

/-- Claim C6: on every exit path of `query` and `transaction` — normal
return, statement error, callback error, or an error during
begin/commit/rollback — the acquired connection is released exactly once
(one `release` event in the trace, and it is the final event) with exactly
one acquisition. -/
theorem C6_release_exactly_once {α : Type} :
    (∀ execResult : Except String α,
      (query execResult).2.count .release = 1 ∧
      (query execResult).2.count .acquire = 1 ∧
      (query execResult).2.getLast? = some .release) ∧
    (∀ (beginFails : Bool) (fnResult : Except String α)
        (commitFails rollbackFails : Bool),
      (transaction beginFails fnResult commitFails rollbackFails).2.count
        .release = 1 ∧
      (transaction beginFails fnResult commitFails rollbackFails).2.count
        .acquire = 1 ∧
      (transaction beginFails fnResult commitFails
        rollbackFails).2.getLast? = some .release) := by
  constructor
  · intro execResult
    cases execResult <;> exact ⟨rfl, rfl, rfl⟩
  · intro beginFails fnResult commitFails rollbackFails
    cases beginFails <;> cases fnResult <;> cases commitFails <;>
      cases rollbackFails <;> exact ⟨rfl, rfl, rfl⟩

end BLChecker
